import Mathlib

/-!
Shallow embedding of the row-lineage / metadata-tracking pipeline layer
(`pipeline_functions.py`, with the `ValidationError` type from
`src/validation_function.py`).

Modelling conventions:
* Row identifiers are opaque UUID-grade strings in the source; they are
  modelled as natural numbers minted from a counter that is threaded
  explicitly (`uuid.uuid4()` mints a fresh identifier, never reused).
* Python dictionaries (`defaultdict(list)` for the lineage ledger) are
  modelled as insertion-ordered association lists with the exact
  update semantics of the source (`d[k] = v` overwrites in place or
  appends a new entry; `defaultdict` indexing materialises a default).
* Exceptions are modelled with `Except PyErr`; `ValidationError` carries
  its field-to-message mapping as an insertion-ordered association list.
* Wall-clock durations (`time.time() - start_time`) are not modelled;
  the duration field of a transformation-log record is fixed to `0`.
* Mutation of the shared `MetadataManager` object is modelled by explicit
  state passing: mutators return the updated manager, query methods
  return a pair of the result and the manager state after the call.
-/

/-- Python exceptions that cross the decorators' error-handling paths:
`ValidationError` (carrying its field-to-message mapping), `NameError`
(raised when a free variable is unbound), and any other exception,
abstracted by its message. -/
inductive PyErr where
  | validation (errors : List (String × String))
  | nameError (msg : String)
  | other (msg : String)
deriving Repr, DecidableEq

/-- Rendering of `str(error)` as stored by `MetadataManager.log_error`.
For `ValidationError` this follows its `__str__` ("Validation failed: ...");
the exact text of the mapping rendering is not correctness-relevant. -/
def PyErr.pyStr : PyErr → String
  | .validation es =>
      "Validation failed: " ++ String.intercalate ", " (es.map (fun p => p.1 ++ ": " ++ p.2))
  | .nameError msg => msg
  | .other msg => msg

/-- Test of whether a row-level call outcome is a raised `ValidationError`
(the exception class matched by the first `except` clause of
`handle_row_errors`). -/
def isValidationRes {β : Type} : Except PyErr β → Bool
  | .error (.validation _) => true
  | _ => false

/-- Row identifiers: opaque, globally unique tokens (UUID strings in the
source), modelled as naturals minted from a counter. -/
abbrev RowId := Nat

/-- Subject of an error record: a row identifier, or the sentinel
`"global"` used by the dataset-level decorator. -/
inductive Subject where
  | rowId (rid : RowId)
  | global
deriving Repr, DecidableEq

/-- Error Record appended by `MetadataManager.log_error`:
`{"row_id": ..., "transformation": ..., "error": str(error)}`. -/
structure ErrorRecord where
  row_id : Subject
  transformation : String
  error : String
deriving Repr, DecidableEq

/-- Transformation Log record appended by `MetadataManager.log_transformation`:
`{"transformation": ..., "time": duration, "details": {"row_count": ...}}`.
The wall-clock duration is outside the embedding and fixed to `0`. -/
structure LogRecord where
  transformation : String
  time : Nat
  details_row_count : Nat
deriving Repr, DecidableEq

/-- Insertion-ordered association-list lookup, the non-mutating
`dict.get(k)` (returns `none` when the key is absent). -/
def dictGet {κ ν : Type} [DecidableEq κ] : List (κ × ν) → κ → Option ν
  | [], _ => none
  | (k', v) :: rest, k => if k' = k then some v else dictGet rest k

/-- Python dict assignment `d[k] = v`: overwrite the existing entry in
place, or append a new entry at the end. -/
def dictSet {κ ν : Type} [DecidableEq κ] : List (κ × ν) → κ → ν → List (κ × ν)
  | [], k, v => [(k, v)]
  | (k', v') :: rest, k, v =>
      if k' = k then (k', v) :: rest else (k', v') :: dictSet rest k v

/-- The `defaultdict(list)` idiom `d[k].append(t)`: append `t` to the
existing list at `k`, or materialise the default `[]` and append,
creating the entry `(k, [t])`. -/
def dictAppend {κ : Type} [DecidableEq κ] :
    List (κ × List String) → κ → String → List (κ × List String)
  | [], k, t => [(k, [t])]
  | (k', v') :: rest, k, t =>
      if k' = k then (k', v' ++ [t]) :: rest else (k', v') :: dictAppend rest k t

/-- Keys of an association list, in insertion order. -/
def dictKeys {κ ν : Type} : List (κ × ν) → List κ :=
  fun d => d.map (fun p => p.1)

/-- Dataset row: the `row_id` column (absent before the Row Identity
Assigner has run) plus all other columns, abstracted by `α`. -/
structure Row (α : Type) where
  row_id : Option RowId
  data : α
deriving Repr, DecidableEq

/-- Dataset: an ordered table of rows (`pd.DataFrame`). -/
structure Df (α : Type) where
  rows : List (Row α)
deriving Repr, DecidableEq

/-- The `row_id` column of a dataset, `df["row_id"]`, in row order. -/
def Df.rowIds {α : Type} (df : Df α) : List RowId :=
  df.rows.filterMap (fun r => r.row_id)

/-- MetadataManager state: the lineage ledger (`defaultdict(list)` from
row identifier to the ordered sequence of transformation names), the
append-only error ledger, and the append-only transformation log. -/
structure MetadataManager where
  lineage : List (RowId × List String)
  errors : List ErrorRecord
  logs : List LogRecord
deriving Repr, DecidableEq

/-- The freshly constructed manager (`MetadataManager.__init__`). -/
def MetadataManager.empty : MetadataManager :=
  { lineage := [], errors := [], logs := [] }

/-- Source method `initialize` of `MetadataManager` (renamed here): for
every `row_id` in `df["row_id"]`, set `self.lineage[row_id] = []`. -/
def MetadataManager.initLineage {α : Type} (m : MetadataManager) (df : Df α) :
    MetadataManager :=
  { m with lineage := df.rowIds.foldl (fun L rid => dictSet L rid []) m.lineage }

/-- Source `MetadataManager.update_lineage`: append `transformation` to
the lineage of every `row_id` in `df["row_id"]` (defaultdict indexing),
then, when `new_rows` is truthy (a non-empty list; `None` and `[]` are
falsy), reset each identifier in `new_rows` to `[transformation]`. -/
def MetadataManager.update_lineage {α : Type} (m : MetadataManager) (df : Df α)
    (transformation : String) (new_rows : Option (List RowId)) : MetadataManager :=
  let L1 := df.rowIds.foldl (fun L rid => dictAppend L rid transformation) m.lineage
  let L2 :=
    match new_rows with
    | none => L1
    | some nrs =>
        if nrs.isEmpty then L1
        else nrs.foldl (fun L rid => dictSet L rid [transformation]) L1
  { m with lineage := L2 }

/-- Source `MetadataManager.log_error`: append an error record with the
subject, the transformation name, and `str(error)`. -/
def MetadataManager.log_error (m : MetadataManager) (subject : Subject)
    (transformation : String) (e : PyErr) : MetadataManager :=
  { m with errors := m.errors ++ [⟨subject, transformation, e.pyStr⟩] }

/-- Source `MetadataManager.log_transformation`: append a transformation
log record with the elapsed duration (fixed to `0` in the embedding)
and the detail map `{"row_count": row_count}`. -/
def MetadataManager.log_transformation (m : MetadataManager)
    (transformation : String) (row_count : Nat) : MetadataManager :=
  { m with logs := m.logs ++ [⟨transformation, 0, row_count⟩] }

/-- Source `MetadataManager.get_lineage`: `self.lineage.get(row_id, [])`,
a non-mutating lookup. The pair records the manager state after the
method call (unchanged). -/
def MetadataManager.get_lineage (m : MetadataManager) (rid : RowId) :
    List String × MetadataManager :=
  ((dictGet m.lineage rid).getD [], m)

/-- Source `MetadataManager.get_errors`: returns the accumulated error
records; the manager state after the call is unchanged. -/
def MetadataManager.get_errors (m : MetadataManager) :
    List ErrorRecord × MetadataManager :=
  (m.errors, m)

/-- Source `MetadataManager.get_logs`: returns the accumulated
transformation-log records; the manager state after the call is
unchanged. -/
def MetadataManager.get_logs (m : MetadataManager) :
    List LogRecord × MetadataManager :=
  (m.logs, m)

/-- Stamping of fresh identifiers onto rows in row order, one counter
value per row (`[str(uuid.uuid4()) for _ in range(len(df))]`). -/
def assignIds {α : Type} (c : Nat) : List (Row α) → List (Row α)
  | [] => []
  | r :: rs => { r with row_id := some c } :: assignIds (c + 1) rs

/-- Source `add_row_id`: copies the dataset and sets the `row_id` column
to freshly minted unique identifiers, one per row; the input dataset is
left untouched (`df = df.copy()`). Returns the new dataset and the
advanced mint counter. -/
def add_row_id {α : Type} (df : Df α) (c : Nat) : Df α × Nat :=
  ({ rows := assignIds c df.rows }, c + df.rows.length)

/-- Row-level function call outcome: a value, or a raised exception. -/
abbrev RowResult (β : Type) := Except PyErr β

/-- Source `handle_row_errors` wrapper around a row-level function `f`.
On success, returns the value unchanged. On a raised `ValidationError`,
the handler body evaluates the free variable `context`, which is unbound
anywhere in the repository, so Python raises
`NameError: name 'context' is not defined` out of the handler (the later
`except Exception` clause of the same `try` does not catch it). On any
other exception, when an `on_error` callback is configured (in the
repository always `MetadataManager.log_error`) and the row carries a
`row_id`, logs an error record keyed by the row identifier and
`f"{func.__name__} (column: {column_name})"`; the fallback value is then
returned, reaching the `return fallback_value` line whether or not the
record was logged. -/
def handle_row_errors {α β : Type} (onErrorSet : Bool) (column_name : String)
    (funcName : String) (fallback : β) (f : Row α → RowResult β)
    (row : Row α) (m : MetadataManager) : RowResult β × MetadataManager :=
  match f row with
  | .ok v => (.ok v, m)
  | .error (.validation _) =>
      (.error (.nameError "name 'context' is not defined"), m)
  | .error e =>
      match onErrorSet, row.row_id with
      | true, some rid =>
          (.ok fallback,
           m.log_error (.rowId rid) (funcName ++ " (column: " ++ column_name ++ ")") e)
      | _, _ => (.ok fallback, m)

/-- Dataset-level application of a wrapped row function over every row in
order (`df.apply(wrapped, axis=1)`): the first raised exception aborts
the whole application; otherwise the per-row results are collected in
row order. -/
def applyRows {α β : Type} (w : Row α → MetadataManager → RowResult β × MetadataManager) :
    List (Row α) → MetadataManager → Except PyErr (List β) × MetadataManager
  | [], m => (.ok [], m)
  | r :: rs, m =>
      match w r m with
      | (.ok v, m1) =>
          match applyRows w rs m1 with
          | (.ok vs, m2) => (.ok (v :: vs), m2)
          | (.error e, m2) => (.error e, m2)
      | (.error e, m1) => (.error e, m1)

/-- Dataset-level transformation under the shared manager: receives the
current dataset and the manager state, returns a new dataset or raises,
possibly logging through the manager (row-level isolation does). -/
abbrev Transform (α : Type) :=
  Df α → MetadataManager → Except PyErr (Df α) × MetadataManager

/-- Source `manage_metadata` wrapper around a dataset-level function `g`
(whose name is used as the transformation name). On success: updates the
lineage ledger for every row of the result (no `new_rows` argument),
appends a transformation-log record with the result row count, and
returns the result. On any exception from `g`: logs a global error
record and re-raises the same exception. -/
def manage_metadata {α : Type} (funcName : String) (g : Transform α) : Transform α :=
  fun df m =>
    match g df m with
    | (.ok result, m1) =>
        let m2 := m1.update_lineage result funcName none
        let m3 := m2.log_transformation funcName result.rows.length
        (.ok result, m3)
    | (.error e, m1) => (.error e, m1.log_error .global funcName e)

/-- Sequential application of the pipeline's transformations, threading
the dataset and the manager forward; the first raised exception aborts
the run and propagates. -/
def runTransforms {α : Type} : List (Transform α) → Df α → MetadataManager →
    Except PyErr (Df α) × MetadataManager
  | [], df, m => (.ok df, m)
  | t :: ts, df, m =>
      match t df m with
      | (.ok df1, m1) => runTransforms ts df1 m1
      | (.error e, m1) => (.error e, m1)

/-- Source `build_pipeline`: the returned callable first runs
`add_row_id`, then `metadata_manager.initialize` on the identified
dataset, then applies each transformation in list order. Returns the
run outcome together with the advanced mint counter. -/
def build_pipeline {α : Type} (pipeline_specs : List (Transform α))
    (df : Df α) (c : Nat) (m : MetadataManager) :
    (Except PyErr (Df α) × MetadataManager) × Nat :=
  let p := add_row_id df c
  let m0 := m.initLineage p.1
  (runTransforms pipeline_specs p.1 m0, p.2)

/-! Helper lemmas about the dictionary operations. -/

/-- Lookup after assignment at the same key yields the assigned value. -/
theorem dictGet_dictSet_self {κ ν : Type} [DecidableEq κ] (L : List (κ × ν))
    (k : κ) (v : ν) : dictGet (dictSet L k v) k = some v := by
  induction L with
  | nil => simp [dictSet, dictGet]
  | cons p rest ih =>
      by_cases h : p.1 = k
      · simp [dictSet, dictGet, h]
      · simp [dictSet, dictGet, h, ih]

/-- Lookup after assignment at a different key is unchanged. -/
theorem dictGet_dictSet_ne {κ ν : Type} [DecidableEq κ] (L : List (κ × ν))
    (k k' : κ) (v : ν) (h : k' ≠ k) :
    dictGet (dictSet L k v) k' = dictGet L k' := by
  have h2 : ¬ k = k' := fun hh => h hh.symm
  induction L with
  | nil => simp [dictSet, dictGet, h2]
  | cons p rest ih =>
      by_cases hp : p.1 = k
      · subst hp
        simp [dictSet, dictGet, h2]
      · by_cases hp' : p.1 = k'
        · simp [dictSet, dictGet, hp, hp', h]
        · simp [dictSet, dictGet, hp, hp', ih]

/-- Lookup after a defaultdict append at the same key yields the prior
sequence (default `[]`) extended by the appended element. -/
theorem dictGet_dictAppend_self {κ : Type} [DecidableEq κ]
    (L : List (κ × List String)) (k : κ) (t : String) :
    dictGet (dictAppend L k t) k = some ((dictGet L k).getD [] ++ [t]) := by
  induction L with
  | nil => simp [dictAppend, dictGet]
  | cons p rest ih =>
      by_cases h : p.1 = k
      · simp [dictAppend, dictGet, h]
      · simp [dictAppend, dictGet, h, ih]

/-- Lookup after a defaultdict append at a different key is unchanged. -/
theorem dictGet_dictAppend_ne {κ : Type} [DecidableEq κ]
    (L : List (κ × List String)) (k k' : κ) (t : String) (h : k' ≠ k) :
    dictGet (dictAppend L k t) k' = dictGet L k' := by
  have h2 : ¬ k = k' := fun hh => h hh.symm
  induction L with
  | nil => simp [dictAppend, dictGet, h2]
  | cons p rest ih =>
      by_cases hp : p.1 = k
      · subst hp
        simp [dictAppend, dictGet, h2]
      · by_cases hp' : p.1 = k'
        · simp [dictAppend, dictGet, hp, hp', h]
        · simp [dictAppend, dictGet, hp, hp', ih]

/-- Folding defaultdict appends over identifiers not containing `k`
leaves the lookup at `k` unchanged. -/
theorem dictGet_foldl_append_not_mem {κ : Type} [DecidableEq κ]
    (ids : List κ) (t : String) :
    ∀ (L : List (κ × List String)) (k : κ), k ∉ ids →
      dictGet (ids.foldl (fun L r => dictAppend L r t) L) k = dictGet L k := by
  induction ids with
  | nil => intro L k _; rfl
  | cons r rs ih =>
      intro L k hk
      have hne : k ≠ r := fun hh => hk (hh ▸ List.mem_cons_self r rs)
      have hks : k ∉ rs := fun hh => hk (List.mem_cons_of_mem r hh)
      simp only [List.foldl_cons]
      rw [ih _ k hks, dictGet_dictAppend_ne _ _ _ _ hne]

/-- Folding defaultdict appends over a duplicate-free identifier list
containing `k` exactly once appends exactly one copy of `t` to the
sequence at `k`. -/
theorem dictGet_foldl_append_once {κ : Type} [DecidableEq κ]
    (ids : List κ) (t : String) :
    ∀ (L : List (κ × List String)) (k : κ), ids.Nodup → k ∈ ids →
      (dictGet (ids.foldl (fun L r => dictAppend L r t) L) k).getD [] =
        (dictGet L k).getD [] ++ [t] := by
  induction ids with
  | nil => intro L k _ hk; cases hk
  | cons r rs ih =>
      intro L k hnd hk
      have hnd' := List.nodup_cons.mp hnd
      simp only [List.foldl_cons]
      rcases List.mem_cons.mp hk with hkr | hkrs
      · subst hkr
        rw [dictGet_foldl_append_not_mem rs t _ k hnd'.1,
            dictGet_dictAppend_self]
        simp
      · have hne : k ≠ r := fun hh => hnd'.1 (hh ▸ hkrs)
        rw [ih _ k hnd'.2 hkrs, dictGet_dictAppend_ne _ _ _ _ hne]

/-- Keys after a defaultdict append: unchanged when the key is already
present, extended by the key otherwise. -/
theorem dictKeys_dictAppend {κ : Type} [DecidableEq κ]
    (L : List (κ × List String)) (k : κ) (t : String) :
    dictKeys (dictAppend L k t) =
      if k ∈ dictKeys L then dictKeys L else dictKeys L ++ [k] := by
  induction L with
  | nil => simp [dictAppend, dictKeys]
  | cons p rest ih =>
      by_cases h : p.1 = k
      · simp [dictAppend, dictKeys, h]
      · have hne : ¬ k = p.1 := fun hh => h hh.symm
        by_cases hmem : k ∈ dictKeys rest
        · simp only [dictAppend, if_neg h, dictKeys, List.map_cons] at *
          simp [hmem, hne, ih]
        · simp only [dictAppend, if_neg h, dictKeys, List.map_cons] at *
          simp [hmem, hne, ih]

/-- Folding defaultdict appends over identifiers already present among
the keys leaves the key list unchanged. -/
theorem dictKeys_foldl_append {κ : Type} [DecidableEq κ]
    (ids : List κ) (t : String) :
    ∀ (L : List (κ × List String)), (∀ r ∈ ids, r ∈ dictKeys L) →
      dictKeys (ids.foldl (fun L r => dictAppend L r t) L) = dictKeys L := by
  induction ids with
  | nil => intro L _; rfl
  | cons r rs ih =>
      intro L hsub
      have hr : r ∈ dictKeys L := hsub r (List.mem_cons_self r rs)
      have hkeys : dictKeys (dictAppend L r t) = dictKeys L := by
        rw [dictKeys_dictAppend]; simp [hr]
      simp only [List.foldl_cons]
      rw [ih _ (fun x hx => hkeys ▸ hsub x (List.mem_cons_of_mem r hx)), hkeys]

/-- Folding assignments of the empty sequence over an identifier list:
the lookup at `k` is `some []` when `k` occurs in the list, and is
unchanged otherwise. -/
theorem dictGet_foldl_set_nil {κ : Type} [DecidableEq κ] (ids : List κ) :
    ∀ (L : List (κ × List String)) (k : κ),
      dictGet (ids.foldl (fun L r => dictSet L r []) L) k =
        if k ∈ ids then some [] else dictGet L k := by
  induction ids with
  | nil => intro L k; simp
  | cons r rs ih =>
      intro L k
      simp only [List.foldl_cons]
      rw [ih]
      by_cases hk : k ∈ rs
      · simp [hk, List.mem_cons_of_mem r hk]
      · by_cases hkr : k = r
        · subst hkr
          simp [hk, dictGet_dictSet_self]
        · simp [hk, hkr, dictGet_dictSet_ne _ _ _ _ hkr]

/-! Helper lemmas about fresh-identifier assignment. -/

/-- Stamping identifiers preserves the number of rows. -/
theorem assignIds_length {α : Type} (c : Nat) (rs : List (Row α)) :
    (assignIds c rs).length = rs.length := by
  induction rs generalizing c with
  | nil => rfl
  | cons r rs ih => simp [assignIds, ih]

/-- Row `i` after stamping keeps its data and carries the identifier
minted from counter value `c + i`. -/
theorem assignIds_getElem {α : Type} (c : Nat) (rs : List (Row α)) :
    ∀ i : Nat, (assignIds c rs)[i]? =
      (rs[i]?).map (fun r => { r with row_id := some (c + i) }) := by
  induction rs generalizing c with
  | nil => intro i; simp [assignIds]
  | cons r rs ih =>
      intro i
      cases i with
      | zero => simp [assignIds]
      | succ j =>
          simp only [assignIds, List.getElem?_cons_succ, ih (c + 1) j]
          cases rs[j]? with
          | none => rfl
          | some r2 => simp [Nat.add_assoc, Nat.add_comm 1 j]

/-- The `row_id` column after stamping from counter `c` is the
consecutive block of `length` fresh identifiers starting at `c`. -/
theorem rowIds_assignIds {α : Type} (c : Nat) (rs : List (Row α)) :
    Df.rowIds ⟨assignIds c rs⟩ = List.range' c rs.length := by
  induction rs generalizing c with
  | nil => rfl
  | cons r rs ih =>
      simp only [assignIds, Df.rowIds, List.filterMap_cons, List.length_cons,
        List.range'_succ c rs.length 1]
      exact congrArg (c :: ·) (ih (c + 1))

/-! Claim theorems. -/

/-- C8: for every input dataset without a row-identifier column,
`add_row_id` returns a dataset with the same number of rows, identical
in all pre-existing columns (the `data` of each row is untouched), plus
a `row_id` column whose values are pairwise distinct, one per row in
row order (row `i` receives the identifier minted at counter `c + i`).
The input dataset is not mutated: `add_row_id` operates on a copy
(`df.copy()`), modelled by the function being pure in `df`. -/
theorem add_row_id_spec {α : Type} (df : Df α) (c : Nat)
    (hno : ∀ r ∈ df.rows, r.row_id = none) :
    (add_row_id df c).1.rows.length = df.rows.length
    ∧ (∀ i : Nat, ((add_row_id df c).1.rows[i]?).map Row.data =
        (df.rows[i]?).map Row.data)
    ∧ (∀ i : Nat, (add_row_id df c).1.rows[i]? =
        (df.rows[i]?).map (fun r => { r with row_id := some (c + i) }))
    ∧ (add_row_id df c).1.rowIds.Nodup
    ∧ (add_row_id df c).1.rowIds.length = df.rows.length := by
  refine ⟨assignIds_length c df.rows, ?_, ?_, ?_, ?_⟩
  · intro i
    rw [show (add_row_id df c).1.rows = assignIds c df.rows from rfl,
        assignIds_getElem]
    cases df.rows[i]? with
    | none => rfl
    | some r => rfl
  · intro i
    exact assignIds_getElem c df.rows i
  · rw [show (add_row_id df c).1 = ⟨assignIds c df.rows⟩ from rfl,
        rowIds_assignIds]
    exact List.nodup_range' c df.rows.length 1 Nat.one_pos
  · rw [show (add_row_id df c).1 = ⟨assignIds c df.rows⟩ from rfl,
        rowIds_assignIds]
    simp

/-- Witness for C8: a two-row dataset with no `row_id` column; the
identity assigner adds distinct identifiers while preserving length. -/
theorem add_row_id_spec_witness :
    (∀ r ∈ (Df.mk [⟨none, (10 : Nat)⟩, ⟨none, 20⟩]).rows, r.row_id = none)
    ∧ (add_row_id (Df.mk [⟨none, (10 : Nat)⟩, ⟨none, 20⟩]) 5).1.rows.length =
        (Df.mk [⟨none, (10 : Nat)⟩, ⟨none, 20⟩]).rows.length
    ∧ (add_row_id (Df.mk [⟨none, (10 : Nat)⟩, ⟨none, 20⟩]) 5).1.rowIds.Nodup :=
  ⟨by decide,
   (add_row_id_spec (Df.mk [⟨none, (10 : Nat)⟩, ⟨none, 20⟩]) 5 (by decide)).1,
   (add_row_id_spec (Df.mk [⟨none, (10 : Nat)⟩, ⟨none, 20⟩]) 5 (by decide)).2.2.2.1⟩

/-- C9: querying lineage immediately after ledger initialization returns
the empty sequence for every identifier of the dataset, and querying
lineage for an identifier unknown to the ledger returns the empty
sequence; `get_lineage` is a total function, so the query never raises. -/
theorem get_lineage_after_init :
    (∀ (α : Type) (df : Df α) (m : MetadataManager) (rid : RowId),
        rid ∈ df.rowIds → ((m.initLineage df).get_lineage rid).1 = [])
    ∧ (∀ (m : MetadataManager) (rid : RowId),
        dictGet m.lineage rid = none → (m.get_lineage rid).1 = []) := by
  constructor
  · intro α df m rid hmem
    show (dictGet (MetadataManager.initLineage m df).lineage rid).getD [] = []
    rw [show (MetadataManager.initLineage m df).lineage =
          df.rowIds.foldl (fun L r => dictSet L r []) m.lineage from rfl,
        dictGet_foldl_set_nil]
    simp [hmem]
  · intro m rid h
    show (dictGet m.lineage rid).getD [] = []
    rw [h]
    rfl

/-- Witness for C9: a one-row dataset; after initialization its
identifier has empty lineage, and an unknown identifier queries to the
empty sequence on the fresh manager. -/
theorem get_lineage_after_init_witness :
    (7 ∈ (Df.mk [⟨some 7, (0 : Nat)⟩]).rowIds)
    ∧ ((MetadataManager.empty.initLineage (Df.mk [⟨some 7, (0 : Nat)⟩])).get_lineage 7).1 = []
    ∧ dictGet MetadataManager.empty.lineage 9 = none
    ∧ (MetadataManager.empty.get_lineage 9).1 = [] :=
  ⟨by decide,
   get_lineage_after_init.1 Nat (Df.mk [⟨some 7, (0 : Nat)⟩])
     MetadataManager.empty 7 (by decide),
   by decide,
   get_lineage_after_init.2 MetadataManager.empty 9 (by decide)⟩

/-- C10: the query operations `get_lineage`, `get_errors`, and
`get_logs` leave the manager's state (lineage, error, and
transformation-log stores) exactly as it was; in particular querying
the lineage of an identifier with no entry does not insert a new entry
into the lineage mapping (`dict.get`, not `defaultdict` indexing). -/
theorem metadata_queries_pure :
    (∀ (m : MetadataManager) (rid : RowId), (m.get_lineage rid).2 = m)
    ∧ (∀ m : MetadataManager, m.get_errors.2 = m)
    ∧ (∀ m : MetadataManager, m.get_logs.2 = m)
    ∧ (∀ (m : MetadataManager) (rid : RowId), rid ∉ dictKeys m.lineage →
        rid ∉ dictKeys (m.get_lineage rid).2.lineage) := by
  refine ⟨fun m rid => rfl, fun m => rfl, fun m => rfl, fun m rid h => h⟩

/-- Witness for C10: concrete queries on a one-entry manager leave the
state unchanged, and an absent key stays absent after a lineage query. -/
theorem metadata_queries_pure_witness :
    ((MetadataManager.mk [(3, ["f"])] [] []).get_lineage 9).2 =
      MetadataManager.mk [(3, ["f"])] [] []
    ∧ (9 ∉ dictKeys (MetadataManager.mk [(3, ["f"])] [] []).lineage)
    ∧ 9 ∉ dictKeys ((MetadataManager.mk [(3, ["f"])] [] []).get_lineage 9).2.lineage :=
  ⟨metadata_queries_pure.1 (MetadataManager.mk [(3, ["f"])] [] []) 9,
   by decide,
   metadata_queries_pure.2.2.2 (MetadataManager.mk [(3, ["f"])] [] []) 9 (by decide)⟩

/-- C6: for every reshaping transformation run under the metadata
decorator, each row identifier of the result that is new to the run
(such as the fresh `uuid.uuid4()` identifiers minted by
`aggregate_with_details`, which, being freshly minted and never reused,
have no entry in the lineage ledger) ends the step with a lineage
sequence of exactly `[funcName]`, of length 1, regardless of the lineage
depth of the contributing input rows. The decorator calls
`update_lineage` with no `new_rows` argument, so the singleton arises
from `defaultdict` materialisation on the first append. -/
theorem fresh_id_lineage_singleton {α : Type} (funcName : String)
    (g : Transform α) (df result : Df α) (m m1 : MetadataManager) (rid : RowId)
    (hg : g df m = (.ok result, m1))
    (hmem : rid ∈ result.rowIds)
    (hnd : result.rowIds.Nodup)
    (hfresh : dictGet m1.lineage rid = none) :
    ((manage_metadata funcName g df m).2.get_lineage rid).1 = [funcName] := by
  have h2 : (manage_metadata funcName g df m).2 =
      (m1.update_lineage result funcName none).log_transformation funcName
        result.rows.length := by
    simp [manage_metadata, hg]
  rw [h2]
  show (dictGet ((m1.update_lineage result funcName none).log_transformation
      funcName result.rows.length).lineage rid).getD [] = [funcName]
  have h3 : ((m1.update_lineage result funcName none).log_transformation
      funcName result.rows.length).lineage =
      result.rowIds.foldl (fun L r => dictAppend L r funcName) m1.lineage := rfl
  rw [h3, dictGet_foldl_append_once result.rowIds funcName m1.lineage rid hnd hmem,
      hfresh]
  rfl

/-- Witness for C6: a transformation emitting one fresh identifier on an
empty ledger; its lineage after the step is the singleton of the
transformation's name. -/
theorem fresh_id_lineage_singleton_witness :
    ((fun (_ : Df Nat) (mm : MetadataManager) =>
        ((.ok (Df.mk [⟨some 7, (0 : Nat)⟩]) : Except PyErr (Df Nat)), mm))
      (Df.mk []) MetadataManager.empty =
        (.ok (Df.mk [⟨some 7, (0 : Nat)⟩]), MetadataManager.empty))
    ∧ (7 ∈ (Df.mk [⟨some 7, (0 : Nat)⟩]).rowIds)
    ∧ (Df.mk [⟨some 7, (0 : Nat)⟩]).rowIds.Nodup
    ∧ dictGet MetadataManager.empty.lineage 7 = none
    ∧ ((manage_metadata "aggregate_with_details"
        (fun (_ : Df Nat) (mm : MetadataManager) =>
          ((.ok (Df.mk [⟨some 7, (0 : Nat)⟩]) : Except PyErr (Df Nat)), mm))
        (Df.mk []) MetadataManager.empty).2.get_lineage 7).1 =
          ["aggregate_with_details"] :=
  ⟨rfl, by decide, by decide, rfl,
   fresh_id_lineage_singleton "aggregate_with_details"
     (fun _ mm => (.ok (Df.mk [⟨some 7, (0 : Nat)⟩]), mm))
     (Df.mk []) (Df.mk [⟨some 7, (0 : Nat)⟩]) MetadataManager.empty
     MetadataManager.empty 7 rfl (by decide) (by decide) rfl⟩

/-- C7: for every 1:1 dataset-level transformation run under the
metadata decorator (same identifiers in result and input, none added,
each appearing once), provided the wrapped body leaves the lineage store
untouched (it may log errors) and every input identifier already has a
ledger entry (as `initialize` guarantees), each input identifier's
lineage grows by exactly the one entry `funcName`, and the ledger's key
set is unchanged — no new identifiers appear. -/
theorem one_to_one_lineage_growth {α : Type} (funcName : String)
    (g : Transform α) (df result : Df α) (m m1 : MetadataManager)
    (hg : g df m = (.ok result, m1))
    (hsub1 : ∀ rid ∈ result.rowIds, rid ∈ df.rowIds)
    (hsub2 : ∀ rid ∈ df.rowIds, rid ∈ result.rowIds)
    (hnd : result.rowIds.Nodup)
    (hlin : m1.lineage = m.lineage)
    (hdom : ∀ rid ∈ df.rowIds, rid ∈ dictKeys m.lineage) :
    (∀ rid ∈ df.rowIds,
        (((manage_metadata funcName g df m).2).get_lineage rid).1 =
          (m.get_lineage rid).1 ++ [funcName])
    ∧ dictKeys ((manage_metadata funcName g df m).2).lineage =
        dictKeys m.lineage := by
  have h2 : (manage_metadata funcName g df m).2 =
      (m1.update_lineage result funcName none).log_transformation funcName
        result.rows.length := by
    simp [manage_metadata, hg]
  have h3 : ((m1.update_lineage result funcName none).log_transformation
      funcName result.rows.length).lineage =
      result.rowIds.foldl (fun L r => dictAppend L r funcName) m.lineage := by
    rw [show ((m1.update_lineage result funcName none).log_transformation
        funcName result.rows.length).lineage =
        result.rowIds.foldl (fun L r => dictAppend L r funcName) m1.lineage from rfl,
      hlin]
  constructor
  · intro rid hrid
    rw [h2]
    show (dictGet ((m1.update_lineage result funcName none).log_transformation
        funcName result.rows.length).lineage rid).getD [] =
      (dictGet m.lineage rid).getD [] ++ [funcName]
    rw [h3]
    exact dictGet_foldl_append_once result.rowIds funcName m.lineage rid hnd
      (hsub2 rid hrid)
  · rw [h2]
    show dictKeys ((m1.update_lineage result funcName none).log_transformation
        funcName result.rows.length).lineage = dictKeys m.lineage
    rw [h3]
    exact dictKeys_foldl_append result.rowIds funcName m.lineage
      (fun r hr => hdom r (hsub1 r hr))

/-- Witness for C7: the identity transformation over a one-row dataset
whose identifier is already in the ledger with one prior step; its
lineage grows by exactly the new name and the key set is unchanged. -/
theorem one_to_one_lineage_growth_witness :
    ((fun (d : Df Nat) (mm : MetadataManager) =>
        ((.ok d : Except PyErr (Df Nat)), mm))
      (Df.mk [⟨some 1, (0 : Nat)⟩]) (MetadataManager.mk [(1, ["step0"])] [] []) =
        (.ok (Df.mk [⟨some 1, (0 : Nat)⟩]), MetadataManager.mk [(1, ["step0"])] [] []))
    ∧ (∀ rid ∈ (Df.mk [⟨some 1, (0 : Nat)⟩]).rowIds,
        (((manage_metadata "calc" (fun (d : Df Nat) (mm : MetadataManager) =>
            ((.ok d : Except PyErr (Df Nat)), mm))
          (Df.mk [⟨some 1, (0 : Nat)⟩])
          (MetadataManager.mk [(1, ["step0"])] [] [])).2).get_lineage rid).1 =
          ((MetadataManager.mk [(1, ["step0"])] [] []).get_lineage rid).1 ++ ["calc"])
    ∧ dictKeys ((manage_metadata "calc" (fun (d : Df Nat) (mm : MetadataManager) =>
          ((.ok d : Except PyErr (Df Nat)), mm))
        (Df.mk [⟨some 1, (0 : Nat)⟩])
        (MetadataManager.mk [(1, ["step0"])] [] [])).2).lineage =
        dictKeys (MetadataManager.mk [(1, ["step0"])] [] []).lineage :=
  ⟨rfl,
   (one_to_one_lineage_growth "calc"
      (fun d mm => (.ok d, mm))
      (Df.mk [⟨some 1, (0 : Nat)⟩]) (Df.mk [⟨some 1, (0 : Nat)⟩])
      (MetadataManager.mk [(1, ["step0"])] [] [])
      (MetadataManager.mk [(1, ["step0"])] [] [])
      rfl (by decide) (by decide) (by decide) rfl (by decide)).1,
   (one_to_one_lineage_growth "calc"
      (fun d mm => (.ok d, mm))
      (Df.mk [⟨some 1, (0 : Nat)⟩]) (Df.mk [⟨some 1, (0 : Nat)⟩])
      (MetadataManager.mk [(1, ["step0"])] [] [])
      (MetadataManager.mk [(1, ["step0"])] [] [])
      rfl (by decide) (by decide) (by decide) rfl (by decide)).2⟩

/-- C2: for every dataset-level transformation wrapped by the metadata
decorator, when the wrapped call raises, the decorator appends exactly
one Error Record with subject `"global"` and the wrapped function's
name to the error ledger, re-raises the same exception, and appends no
Transformation Log record (and leaves the lineage ledger untouched). -/
theorem manage_metadata_global_error {α : Type} (funcName : String)
    (g : Transform α) (df : Df α) (m m1 : MetadataManager) (e : PyErr)
    (hg : g df m = (.error e, m1)) :
    manage_metadata funcName g df m =
      (.error e,
       { m1 with errors := m1.errors ++ [⟨.global, funcName, e.pyStr⟩] })
    ∧ (manage_metadata funcName g df m).2.logs = m1.logs
    ∧ (manage_metadata funcName g df m).2.lineage = m1.lineage
    ∧ (manage_metadata funcName g df m).2.errors.length =
        m1.errors.length + 1 := by
  refine ⟨?_, ?_, ?_, ?_⟩ <;> simp [manage_metadata, hg, MetadataManager.log_error]

/-- Witness for C2: an always-raising transformation on the fresh
manager appends the single global record and re-raises. -/
theorem manage_metadata_global_error_witness :
    ((fun (_ : Df Nat) (mm : MetadataManager) =>
        ((.error (.other "boom") : Except PyErr (Df Nat)), mm))
      (Df.mk []) MetadataManager.empty =
        (.error (.other "boom"), MetadataManager.empty))
    ∧ manage_metadata "bad_step"
        (fun (_ : Df Nat) (mm : MetadataManager) =>
          ((.error (.other "boom") : Except PyErr (Df Nat)), mm))
        (Df.mk []) MetadataManager.empty =
        (.error (.other "boom"),
         { MetadataManager.empty with
             errors := MetadataManager.empty.errors ++
               [⟨.global, "bad_step", (PyErr.other "boom").pyStr⟩] }) :=
  ⟨rfl,
   (manage_metadata_global_error "bad_step"
      (fun _ mm => (.error (.other "boom"), mm))
      (Df.mk []) MetadataManager.empty MetadataManager.empty
      (.other "boom") rfl).1⟩

/-- Propagation through the transformation list: once a prefix has run
successfully and the next transformation raises, the whole sequential
run yields that exception and that state, for every suffix — later
transformations are never applied. -/
theorem runTransforms_append_error {α : Type} (ts1 : List (Transform α)) :
    ∀ (ts2 : List (Transform α)) (t : Transform α) (df0 d1 : Df α)
      (m0 m1 m2 : MetadataManager) (e : PyErr),
      runTransforms ts1 df0 m0 = (.ok d1, m1) →
      t d1 m1 = (.error e, m2) →
      runTransforms (ts1 ++ t :: ts2) df0 m0 = (.error e, m2) := by
  induction ts1 with
  | nil =>
      intro ts2 t df0 d1 m0 m1 m2 e h1 h2
      simp only [runTransforms] at h1
      obtain ⟨ha, hb⟩ := Prod.mk.injEq _ _ _ _ ▸ h1
      obtain ha2 := Except.ok.injEq _ _ ▸ ha
      subst hb
      simp only [List.nil_append, runTransforms, ha2, h2]
  | cons s ss ih =>
      intro ts2 t df0 d1 m0 m1 m2 e h1 h2
      simp only [List.cons_append, runTransforms] at h1 ⊢
      rcases hs : s df0 m0 with ⟨res, ms⟩
      rw [hs] at h1
      cases res with
      | ok d2 => exact ih ts2 t d2 d1 ms m1 m2 e h1 h2
      | error e2 => exact absurd h1 (by simp)

/-- C3: invoking the callable built by `build_pipeline` first adds the
row-identifier column, then initializes the lineage ledger against the
identified dataset, then applies the transformations in list order,
threading each result into the next (the `runTransforms` fold); if any
transformation raises after a successful prefix, the exception
propagates and no later transformation in the list is applied (the
outcome is independent of the suffix); otherwise the final dataset of
the fold is returned. -/
theorem build_pipeline_order_and_propagation {α : Type}
    (ts1 ts2 : List (Transform α)) (t : Transform α) (df : Df α) (c : Nat)
    (m : MetadataManager) :
    (∀ specs : List (Transform α),
        build_pipeline specs df c m =
          (runTransforms specs (add_row_id df c).1
            (m.initLineage (add_row_id df c).1), (add_row_id df c).2))
    ∧ (∀ (d1 : Df α) (m1 : MetadataManager) (e : PyErr) (m2 : MetadataManager),
        runTransforms ts1 (add_row_id df c).1
          (m.initLineage (add_row_id df c).1) = (.ok d1, m1) →
        t d1 m1 = (.error e, m2) →
        (build_pipeline (ts1 ++ t :: ts2) df c m).1 = (.error e, m2)) := by
  constructor
  · intro specs
    rfl
  · intro d1 m1 e m2 h1 h2
    show runTransforms (ts1 ++ t :: ts2) (add_row_id df c).1
        (m.initLineage (add_row_id df c).1) = (.error e, m2)
    exact runTransforms_append_error ts1 ts2 t _ d1 _ m1 m2 e h1 h2

/-- Witness for C3: a two-element pipeline whose first transformation
raises on the empty dataset; the later transformation is never applied
and the exception propagates out of the built pipeline. -/
theorem build_pipeline_order_and_propagation_witness :
    (runTransforms ([] : List (Transform Nat))
        (add_row_id (Df.mk []) 0).1
        (MetadataManager.empty.initLineage (add_row_id (Df.mk ([] : List (Row Nat))) 0).1) =
      (.ok (add_row_id (Df.mk ([] : List (Row Nat))) 0).1, MetadataManager.empty))
    ∧ ((fun (_ : Df Nat) (mm : MetadataManager) =>
          ((.error (.other "x") : Except PyErr (Df Nat)), mm))
        (add_row_id (Df.mk ([] : List (Row Nat))) 0).1 MetadataManager.empty =
        (.error (.other "x"), MetadataManager.empty))
    ∧ (build_pipeline
        (([] : List (Transform Nat)) ++
          (fun (_ : Df Nat) (mm : MetadataManager) =>
            ((.error (.other "x") : Except PyErr (Df Nat)), mm)) ::
          [fun (d : Df Nat) (mm : MetadataManager) =>
            ((.ok d : Except PyErr (Df Nat)), mm)])
        (Df.mk []) 0 MetadataManager.empty).1 =
        (.error (.other "x"), MetadataManager.empty) :=
  ⟨rfl, rfl,
   (build_pipeline_order_and_propagation
      ([] : List (Transform Nat))
      [fun (d : Df Nat) (mm : MetadataManager) => ((.ok d : Except PyErr (Df Nat)), mm)]
      (fun _ mm => (.error (.other "x"), mm))
      (Df.mk []) 0 MetadataManager.empty).2
     (add_row_id (Df.mk ([] : List (Row Nat))) 0).1 MetadataManager.empty
     (.other "x") MetadataManager.empty rfl rfl⟩

/-- C1: for a row-level function wrapped by `handle_row_errors` (with
the `on_error` callback configured, as the repository configures
`metadata_manager.log_error`), applied over a dataset whose rows all
carry a `row_id`, when the function raises only non-validation
exceptions on a subset of the rows, the dataset-level application does
not raise: each failing row yields the configured fallback value and
exactly one Error Record keyed by that row's identifier and the
function's name (annotated with the target column), each succeeding row
yields the function's result unchanged, and only the error ledger
changes. -/
theorem handle_row_errors_dataset_isolation {α β : Type}
    (column_name funcName : String) (fallback : β) (f : Row α → RowResult β)
    (rows : List (Row α)) (m : MetadataManager)
    (hids : ∀ r ∈ rows, r.row_id.isSome = true)
    (hnv : ∀ r ∈ rows, isValidationRes (f r) = false) :
    applyRows (handle_row_errors true column_name funcName fallback f) rows m =
      (.ok (rows.map (fun r =>
          match f r with
          | .ok v => v
          | .error _ => fallback)),
       { m with errors := m.errors ++ rows.filterMap (fun r =>
          match f r, r.row_id with
          | .error e, some rid =>
              some ⟨.rowId rid,
                    funcName ++ " (column: " ++ column_name ++ ")", e.pyStr⟩
          | _, _ => none) }) := by
  induction rows generalizing m with
  | nil => simp [applyRows]
  | cons r rs ih =>
      have hid := hids r (List.mem_cons_self r rs)
      have hnvr := hnv r (List.mem_cons_self r rs)
      have hids2 : ∀ x ∈ rs, x.row_id.isSome = true :=
        fun x hx => hids x (List.mem_cons_of_mem r hx)
      have hnv2 : ∀ x ∈ rs, isValidationRes (f x) = false :=
        fun x hx => hnv x (List.mem_cons_of_mem r hx)
      rcases hrid : r.row_id with _ | rid
      · rw [hrid] at hid
        simp at hid
      · cases hfr : f r with
        | ok v =>
            simp only [applyRows, handle_row_errors, hfr, List.map_cons,
              List.filterMap_cons]
            rw [ih m hids2 hnv2]
        | error e =>
            rw [hfr] at hnvr
            cases e with
            | validation es => simp [isValidationRes] at hnvr
            | nameError msg =>
                simp only [applyRows, handle_row_errors, hfr, hrid,
                  List.map_cons, List.filterMap_cons]
                rw [ih _ hids2 hnv2]
                simp [MetadataManager.log_error, List.append_assoc]
            | other msg =>
                simp only [applyRows, handle_row_errors, hfr, hrid,
                  List.map_cons, List.filterMap_cons]
                rw [ih _ hids2 hnv2]
                simp [MetadataManager.log_error, List.append_assoc]

/-- Witness for C1: a two-row dataset where the row function fails on
the second row only; the application returns the computed value and the
fallback, with exactly one error record keyed by the failing row. -/
theorem handle_row_errors_dataset_isolation_witness :
    (∀ r ∈ [(⟨some 1, (5 : Nat)⟩ : Row Nat), ⟨some 2, 0⟩], r.row_id.isSome = true)
    ∧ (∀ r ∈ [(⟨some 1, (5 : Nat)⟩ : Row Nat), ⟨some 2, 0⟩],
        isValidationRes ((fun (x : Row Nat) =>
          if x.data = 0 then (.error (.other "Invalid start_value") : RowResult Nat)
          else .ok (x.data + 1)) r) = false)
    ∧ applyRows
        (handle_row_errors true "growth_rate" "safe_calculate_growth" 99
          (fun (x : Row Nat) =>
            if x.data = 0 then (.error (.other "Invalid start_value") : RowResult Nat)
            else .ok (x.data + 1)))
        [(⟨some 1, (5 : Nat)⟩ : Row Nat), ⟨some 2, 0⟩] MetadataManager.empty =
        (.ok [6, 99],
         { MetadataManager.empty with
             errors := [⟨.rowId 2,
               "safe_calculate_growth (column: growth_rate)",
               "Invalid start_value"⟩] }) :=
  ⟨by decide, by decide,
   (handle_row_errors_dataset_isolation "growth_rate" "safe_calculate_growth"
      99
      (fun (x : Row Nat) =>
        if x.data = 0 then (.error (.other "Invalid start_value") : RowResult Nat)
        else .ok (x.data + 1))
      [(⟨some 1, (5 : Nat)⟩ : Row Nat), ⟨some 2, 0⟩] MetadataManager.empty
      (by decide) (by decide)).trans (by rfl)⟩

/-- C4 (evaluating the code at the failing input): a row-level function
raising `ValidationError({"age": "Missing key: age"})` under
`handle_row_errors` does not yield an augmented `ValidationError`: the
handler body's dict comprehension reads the free variable `context`,
which is bound nowhere in the repository, so the call raises
`NameError: name 'context' is not defined` (the claim's augmented
re-raise is the evident intent of the handler). The validation failure
is still not replaced by the fallback value. -/
theorem handle_row_errors_validation_raises_name_error :
    handle_row_errors true "growth_rate" "safe_calculate_growth" (99 : Nat)
      (fun (_ : Row Nat) =>
        (.error (.validation [("age", "Missing key: age")]) : RowResult Nat))
      ⟨some 1, 0⟩ MetadataManager.empty =
      (.error (.nameError "name 'context' is not defined"),
       MetadataManager.empty) := rfl

/-- C5 (counterexample): a non-validation exception on a row with no
`row_id` does not propagate out of `handle_row_errors` as the claim
states: the `return fallback_value` line is outside the
`if on_error and "row_id" in row` guard, so the wrapper returns the
fallback (and logs nothing). -/
theorem handle_row_errors_missing_id_counterexample :
    handle_row_errors true "growth_rate" "safe_calculate_growth" (42 : Nat)
      (fun (_ : Row Nat) => (.error (.other "boom") : RowResult Nat))
      ⟨none, 0⟩ MetadataManager.empty =
      (.ok 42, MetadataManager.empty) := rfl

/-- C5 (amended): for every row-level function wrapped by
`handle_row_errors`, a non-validation exception raised on a row that
carries no `row_id` is swallowed: the wrapper returns the configured
fallback value, appends no Error Record, and does not propagate the
exception. -/
theorem handle_row_errors_missing_id_swallows {α β : Type}
    (column_name funcName : String) (fallback : β) (f : Row α → RowResult β)
    (row : Row α) (m : MetadataManager) (e : PyErr)
    (hrow : row.row_id = none)
    (hfr : f row = .error e)
    (hnv : isValidationRes (f row) = false) :
    handle_row_errors true column_name funcName fallback f row m =
      (.ok fallback, m) := by
  rw [hfr] at hnv
  cases e with
  | validation es => simp [isValidationRes] at hnv
  | nameError msg => simp [handle_row_errors, hfr, hrow]
  | other msg => simp [handle_row_errors, hfr, hrow]

/-- Witness for the amended C5: the concrete no-identifier row. -/
theorem handle_row_errors_missing_id_swallows_witness :
    ((⟨none, (0 : Nat)⟩ : Row Nat).row_id = none)
    ∧ ((fun (_ : Row Nat) => (.error (.other "boom") : RowResult Nat))
        (⟨none, (0 : Nat)⟩ : Row Nat) = .error (.other "boom"))
    ∧ isValidationRes ((fun (_ : Row Nat) =>
        (.error (.other "boom") : RowResult Nat)) (⟨none, (0 : Nat)⟩ : Row Nat)) = false
    ∧ handle_row_errors true "growth_rate" "safe_calculate_growth" (7 : Nat)
        (fun (_ : Row Nat) => (.error (.other "boom") : RowResult Nat))
        ⟨none, 0⟩ MetadataManager.empty = (.ok 7, MetadataManager.empty) :=
  ⟨rfl, rfl, rfl,
   handle_row_errors_missing_id_swallows "growth_rate" "safe_calculate_growth"
     7 (fun _ => .error (.other "boom")) ⟨none, 0⟩ MetadataManager.empty
     (.other "boom") rfl rfl rfl⟩
